import Mathlib

/-!
Shallow embedding of the GS1 scanning core of `src/app.js` (OLD-TRACK):
the raw-to-bracketed decoder (`convertRawToParenthesized`), the field
extractor (`parseGs1`), the date normalizer (`parseGS1Date`) and expiry
classifier (`getExpiryStatus`), the master-index builder
(`buildMasterIndex`) and the tiered product matcher (`matchProduct`).

JavaScript strings are modelled as `List Char`; JS `Map`s are modelled as
association lists with insertion-order iteration and overwrite-in-place
`set`, matching JS `Map` semantics.  `parseInt` results that may be `NaN`
are modelled as `Option Nat` with NaN-comparison semantics made explicit.
-/

namespace OldTrack

abbrev Str := List Char

/-- JS whitespace characters relevant to `String.prototype.trim` (ASCII part). -/
def isSpaceJs (c : Char) : Bool :=
  c == ' ' || c == '\t' || c == '\n' || c == '\r' ||
  c == Char.ofNat 11 || c == Char.ofNat 12

/-- JS `String.prototype.trim`: drop whitespace at both ends. -/
def jsTrim (s : Str) : Str :=
  ((s.dropWhile isSpaceJs).reverse.dropWhile isSpaceJs).reverse

/-- JS `String.prototype.padStart(n, c)`. -/
def padStartL (n : Nat) (c : Char) (s : Str) : Str :=
  List.replicate (n - s.length) c ++ s

/-- JS `s.slice(-n)` on a string: the last `n` characters (all of `s` when shorter). -/
def sliceLast (n : Nat) (s : Str) : Str :=
  s.drop (s.length - n)

/-- JS `String.prototype.includes(sub)` (used with single-substring search). -/
def containsSub (s sub : Str) : Bool :=
  (List.range (s.length + 1)).any fun i => sub.isPrefixOf (s.drop i)

/-- Decimal value of a digit string (digits assumed `0`..`9`). -/
def digitsToNat (ds : Str) : Nat :=
  ds.foldl (fun a c => 10 * a + (c.toNat - 48)) 0

/-- JS `parseInt(s, 10)` restricted to the shapes arising here:
the longest leading digit run is parsed; no digits means `NaN` (`none`). -/
def jsParseInt (s : Str) : Option Nat :=
  let ds := s.takeWhile Char.isDigit
  if ds.isEmpty then none else some (digitsToNat ds)

/-- JS `String(n)` for a natural number: decimal digits.  The accumulator
recursion is fuelled by `n + 1`, an upper bound on the digit count. -/
def natToStrAux : Nat → Nat → Str → Str
  | 0, _, acc => acc
  | f + 1, n, acc =>
    if n < 10 then Char.ofNat (48 + n) :: acc
    else natToStrAux f (n / 10) (Char.ofNat (48 + n % 10) :: acc)

def natToStr (n : Nat) : Str := natToStrAux (n + 1) n []

/-- JS `String(x)` where `x : Option Nat` models a number that may be NaN. -/
def optToStr (o : Option Nat) : Str :=
  match o with
  | some v => natToStr v
  | none => "NaN".data

/-- NaN-aware `x < k`: false when `x` is NaN. -/
def jsLt (o : Option Nat) (k : Nat) : Bool :=
  match o with
  | some v => v < k
  | none => false

/-- NaN-aware `x > k`: false when `x` is NaN. -/
def jsGt (o : Option Nat) (k : Nat) : Bool :=
  match o with
  | some v => k < v
  | none => false

/-- Gregorian leap year. -/
def isLeap (y : Nat) : Bool :=
  y % 4 == 0 && (y % 100 != 0 || y % 400 == 0)

/-- Number of days of month `m` (1..12) in year `y`. -/
def daysInMonth (y m : Nat) : Nat :=
  if m == 2 then (if isLeap y then 29 else 28)
  else if m == 4 || m == 6 || m == 9 || m == 11 then 30
  else 31

/-- Model of JS `new Date(y, m, 0).getDate()`: day 0 of (0-based) month index
`m` is the last day of the previous month, i.e. of human month `m` with
rollover into later years when `m > 12`. -/
def jsMonthEndDay (y m : Nat) : Nat :=
  if m == 0 then 31
  else daysInMonth (y + (m - 1) / 12) ((m - 1) % 12 + 1)

/-- Days since the (proleptic Gregorian) epoch of civil date `y-m-d`,
used to model whole-day differences between local midnights. -/
def monthDaysBefore (y m : Nat) : Nat :=
  (List.range (m - 1)).foldl (fun a k => a + daysInMonth y (k + 1)) 0

def rataDie (y m d : Nat) : Nat :=
  365 * (y - 1) + (y - 1) / 4 - (y - 1) / 100 + (y - 1) / 400 +
    monthDaysBefore y m + d

-- ===========================================================================
-- AI dictionary and raw-to-bracketed decoder (`convertRawToParenthesized`)
-- ===========================================================================

/-- The `aiLengths` dictionary literal of `convertRawToParenthesized`. -/
def aiDict : List (Str × Nat) :=
  [("01".data, 14), ("02".data, 14), ("10".data, 0), ("11".data, 6),
   ("12".data, 6), ("13".data, 6), ("15".data, 6), ("16".data, 6),
   ("17".data, 6), ("20".data, 2), ("21".data, 0), ("22".data, 0),
   ("30".data, 0), ("37".data, 0), ("240".data, 0), ("241".data, 0),
   ("242".data, 0), ("250".data, 0), ("251".data, 0)]

/-- `aiLengths[code]`, `undefined` as `none`. -/
def aiLengths (code : Str) : Option Nat :=
  (aiDict.find? fun p => p.1 == code).map fun p => p.2

/-- The AI-recognition step of the decoder loop at a scan position:
try a 3-character code (only when 3 characters remain), then a
2-character code. Returns the code and its dictionary length. -/
def matchAi (s : Str) : Option (Str × Nat) :=
  match (if 3 ≤ s.length then aiLengths (s.take 3) else none) with
  | some n => some (s.take 3, n)
  | none =>
    match (if 2 ≤ s.length then aiLengths (s.take 2) else none) with
    | some n => some (s.take 2, n)
    | none => none

theorem matchAi_some_len {s : Str} {ai : Str} {n : Nat}
    (h : matchAi s = some (ai, n)) : 2 ≤ ai.length ∧ ai.length ≤ s.length := by
  unfold matchAi at h
  by_cases h3 : 3 ≤ s.length
  · simp only [if_pos h3] at h
    cases hl : aiLengths (s.take 3) with
    | some m =>
      rw [hl] at h
      simp only [Option.some.injEq, Prod.mk.injEq] at h
      obtain ⟨rfl, rfl⟩ := h
      constructor
      · simpa [List.length_take] using by omega
      · simp [List.length_take]
    | none =>
      rw [hl] at h
      simp only [if_pos (by omega : 2 ≤ s.length)] at h
      cases hl2 : aiLengths (s.take 2) with
      | some m =>
        rw [hl2] at h
        simp only [Option.some.injEq, Prod.mk.injEq] at h
        obtain ⟨rfl, rfl⟩ := h
        constructor
        · simp [List.length_take]; omega
        · simp [List.length_take]
      | none => rw [hl2] at h; simp at h
  · simp only [if_neg h3] at h
    by_cases h2 : 2 ≤ s.length
    · simp only [if_pos h2] at h
      cases hl2 : aiLengths (s.take 2) with
      | some m =>
        rw [hl2] at h
        simp only [Option.some.injEq, Prod.mk.injEq] at h
        obtain ⟨rfl, rfl⟩ := h
        constructor
        · simp [List.length_take]; omega
        · simp [List.length_take]
      | none => rw [hl2] at h; simp at h
    · simp only [if_neg h2] at h; simp at h

/-- One iteration of the decoder's `while` loop: the emitted output and the
number of characters consumed.  On an AI match the value is the next
`aiLen` characters (clamped to the part), or everything to the end of the
part for a variable-length AI; on no match one character is silently
skipped. -/
def decodeStep (s : Str) : Str × Nat :=
  match matchAi s with
  | some ain =>
    let vEnd := if 0 < ain.2 then min (ain.1.length + ain.2) s.length else s.length
    ('(' :: ain.1 ++ [')'] ++ (s.drop ain.1.length).take (vEnd - ain.1.length), vEnd)
  | none => ([], 1)

theorem decodeStep_pos {s : Str} (h : s ≠ []) : 0 < (decodeStep s).2 := by
  unfold decodeStep
  cases hm : matchAi s with
  | some ain =>
    have h2 := matchAi_some_len hm
    have hlen : 0 < s.length := List.length_pos.mpr h
    simp only
    split
    · omega
    · omega
  | none => simp

/-- The inner `while` loop of `convertRawToParenthesized` over one part.
Each iteration consumes at least one character, so the loop runs at most
`part.length` times; the fuel makes that bound explicit. -/
def decodePartF : Nat → Str → Str
  | 0, _ => []
  | f + 1, s =>
    if s.isEmpty then []
    else (decodeStep s).1 ++ decodePartF f (s.drop (decodeStep s).2)

def decodePart (s : Str) : Str := decodePartF s.length s

theorem decodePartF_nil (f : Nat) : decodePartF f [] = [] := by
  cases f <;> simp [decodePartF]

theorem decodePartF_congr : ∀ f g : Nat, ∀ s : Str,
    s.length ≤ f → s.length ≤ g → decodePartF f s = decodePartF g s := by
  intro f
  induction f with
  | zero =>
    intro g s hf _
    have : s = [] := List.eq_nil_of_length_eq_zero (by omega)
    subst this
    simp [decodePartF_nil]
  | succ f ih =>
    intro g s hf hg
    cases s with
    | nil => simp [decodePartF_nil]
    | cons c rest =>
      have hne : (c :: rest) ≠ [] := by simp
      have hpos := decodeStep_pos hne
      cases g with
      | zero => simp at hg
      | succ g =>
        simp only [decodePartF, List.isEmpty_cons, if_neg]
        simp only [List.length_cons] at hf hg
        have hlen : ((c :: rest).drop (decodeStep (c :: rest)).2).length ≤ f := by
          simp only [List.length_drop, List.length_cons]
          omega
        have hlen2 : ((c :: rest).drop (decodeStep (c :: rest)).2).length ≤ g := by
          simp only [List.length_drop, List.length_cons]
          omega
        rw [ih g _ hlen hlen2]

theorem decodePart_unfold (s : Str) (h : s ≠ []) :
    decodePart s = (decodeStep s).1 ++ decodePart (s.drop (decodeStep s).2) := by
  cases s with
  | nil => exact absurd rfl h
  | cons c rest =>
    show decodePartF (c :: rest).length (c :: rest) = _
    simp only [List.length_cons, decodePartF, List.isEmpty_cons, Bool.false_eq_true,
      if_false]
    congr 1
    have hpos := decodeStep_pos (by simp : (c :: rest) ≠ [])
    exact decodePartF_congr _ _ _
      (by simp only [List.length_drop, List.length_cons]; omega) (le_refl _)

/-- Split a string on a character (JS `String.prototype.split` with a
single-character separator). -/
def splitOnChar (sep : Char) (s : Str) : List Str :=
  s.foldr (fun c acc =>
    match acc with
    | [] => if c = sep then [[], []] else [[c]]
    | p :: ps => if c = sep then [] :: p :: ps else (c :: p) :: ps) [[]]

/-- `convertRawToParenthesized`: split on `|`, decode each part, concatenate;
if nothing was emitted return the original input. -/
def convertRawToParenthesized (raw : Str) : Str :=
  let result := ((splitOnChar '|' raw).map decodePart).flatten
  if result.isEmpty then raw else result

-- ===========================================================================
-- Date normalization (`parseGS1Date`) and classification (`getExpiryStatus`)
-- ===========================================================================

structure DateParts where
  iso : Str
  formatted : Str
deriving DecidableEq, Repr

/-- `parseGS1Date(dateStr)`: YY→2000+YY, month must be 1..12, a day of `00`
is replaced by the result of `new Date(year, mm, 0).getDate()`, and the day
must then lie in 1..31 (no per-month upper bound beyond 31). -/
def parseGS1Date (dateStr : Str) : DateParts :=
  if dateStr.isEmpty || dateStr.length != 6 then ⟨[], []⟩
  else
    let yy := jsParseInt (dateStr.take 2)
    let mm := jsParseInt ((dateStr.drop 2).take 2)
    let dd0 := jsParseInt ((dateStr.drop 4).take 2)
    let year := yy.map fun y => 2000 + y
    let dd :=
      if dd0 == some 0 then
        match year, mm with
        | some y, some m => some (jsMonthEndDay y m)
        | _, _ => none
      else dd0
    if jsLt mm 1 || jsGt mm 12 || jsLt dd 1 || jsGt dd 31 then ⟨[], []⟩
    else
      ⟨optToStr year ++ "-".data ++ padStartL 2 '0' (optToStr mm) ++ "-".data ++
         padStartL 2 '0' (optToStr dd),
       padStartL 2 '0' (optToStr dd) ++ "/".data ++ padStartL 2 '0' (optToStr mm) ++
         "/".data ++ optToStr year⟩

/-- Parse an ISO `YYYY-MM-DD` string to days-since-epoch; `none` models a JS
`Invalid Date` (out-of-range components or wrong shape give `NaN` times). -/
def isoToDaysOpt (iso : Str) : Option Int :=
  if h : iso.length = 10 ∧ (iso.take 4).all Char.isDigit ∧
      iso.drop 4 ≠ [] ∧ ((iso.drop 4).take 1 = "-".data) ∧
      ((iso.drop 5).take 2).all Char.isDigit ∧ ((iso.drop 7).take 1 = "-".data) ∧
      ((iso.drop 8).take 2).all Char.isDigit then
    let y := digitsToNat (iso.take 4)
    let m := digitsToNat ((iso.drop 5).take 2)
    let d := digitsToNat ((iso.drop 8).take 2)
    if 1 ≤ m ∧ m ≤ 12 ∧ 1 ≤ d ∧ d ≤ daysInMonth y m then
      some (rataDie y m d : Int)
    else none
  else none

/-- The day-difference branching of `getExpiryStatus` (`diffDays` is the
whole-day difference between expiry and today at local midnight). -/
def statusOfDiff (d : Int) : Str :=
  if d < 0 then "expired".data
  else if d ≤ 30 then "soon".data
  else "ok".data

/-- `getExpiryStatus(isoDate)` with "today" made an explicit parameter
(days since epoch).  An empty date is `missing`; an invalid date gives NaN
differences, for which both comparisons are false, hence `ok`. -/
def getExpiryStatus (today : Int) (iso : Str) : Str :=
  if iso.isEmpty then "missing".data
  else
    match isoToDaysOpt iso with
    | none => "ok".data
    | some e => statusOfDiff (e - today)

-- ===========================================================================
-- Field extractor (`parseGs1`): anchored regex searches, modelled as
-- leftmost-match scans mirroring the `aiPatterns` regexes.
-- ===========================================================================

/-- Leftmost match of the regex `\(CODE\)(\d{k})`: at each position try the
literal `(CODE)` followed by at least `k` digits; capture those `k` digits. -/
def findFixed (code : Str) (k : Nat) : Str → Option Str
  | [] => none
  | c :: rest =>
    let s := c :: rest
    let cap := (s.drop (code.length + 2)).take k
    if ('(' :: code ++ [')']).isPrefixOf s && cap.length == k && cap.all Char.isDigit
    then some cap
    else findFixed code k rest

/-- Leftmost match of `\(01\)(\d{12,13})` with a greedy quantifier:
prefer 13 digits, fall back to 12. -/
def findShort01 : Str → Option Str
  | [] => none
  | c :: rest =>
    let s := c :: rest
    let tl := s.drop 4
    if "(01)".data.isPrefixOf s then
      if (tl.take 13).length == 13 && (tl.take 13).all Char.isDigit then
        some (tl.take 13)
      else if (tl.take 12).length == 12 && (tl.take 12).all Char.isDigit then
        some (tl.take 12)
      else findShort01 rest
    else findShort01 rest

/-- Leftmost match of `\(30\)(\d+)`: a greedy nonempty digit run. -/
def find30 : Str → Option Str
  | [] => none
  | c :: rest =>
    let s := c :: rest
    let run := (s.drop 4).takeWhile Char.isDigit
    if "(30)".data.isPrefixOf s && !run.isEmpty then some run
    else find30 rest

/-- Character class `[A-Za-z0-9\-\/\.\s]` of the batch/serial patterns. -/
def isValueChar (c : Char) : Bool :=
  c.isAlphanum || c == '-' || c == '/' || c == '.' || isSpaceJs c

/-- The lookahead `(?=\([0-9]{2}\)|$)`. -/
def lookAheadOk : Str → Bool
  | [] => true
  | '(' :: d1 :: d2 :: ')' :: _ => d1.isDigit && d2.isDigit
  | _ => false

/-- Lazy `([A-Za-z0-9\-\/\.\s]+?)` up to the lookahead: after each consumed
character (at least one), stop as soon as the lookahead holds. -/
def lazyCap (s : Str) (acc : Str) : Option Str :=
  if !acc.isEmpty && lookAheadOk s then some acc
  else
    match s with
    | [] => none
    | c :: rest => if isValueChar c then lazyCap rest (acc ++ [c]) else none

/-- Leftmost match of `\(CODE\)([A-Za-z0-9\-\/\.\s]+?)(?=\([0-9]{2}\)|$)`
(the batch `10` and serial `21` patterns). -/
def findVar (code : Str) : Str → Option Str
  | [] => none
  | c :: rest =>
    let s := c :: rest
    match
      (if ('(' :: code ++ [')']).isPrefixOf s
       then lazyCap (s.drop (code.length + 2)) [] else none) with
    | some cap => some cap
    | none => findVar code rest

/-- The per-scan result record built by `parseGs1`.  The early return for
empty/non-string input carries only `valid` and `error` in the source; its
other fields are JS `undefined`, modelled as defaults (`matchType := none`
models the absent property). -/
structure ParsedScan where
  valid : Bool
  raw : Str
  gtin14 : Str
  gtin13 : Str
  expiry : Str
  expiryFormatted : Str
  expiryStatus : Str
  batch : Str
  serial : Str
  qty : Str
  productName : Str
  matchType : Option Str
  error : Option Str
deriving DecidableEq, Repr

/-- The early return `{ valid: false, error: 'Empty or invalid input' }`. -/
def emptyInputScan : ParsedScan :=
  { valid := false, raw := [], gtin14 := [], gtin13 := [], expiry := []
    expiryFormatted := [], expiryStatus := [], batch := [], serial := []
    qty := [], productName := [], matchType := none
    error := some "Empty or invalid input".data }

/-- The GTIN extraction of `parseGs1`: the `(01)`+14-digit pattern first
(deriving the 13-digit form by stripping one leading zero), otherwise the
12–13-digit fallback left-padded to 13 then 14 digits. -/
def gtinPair (cleaned : Str) : Str × Str :=
  match findFixed "01".data 14 cleaned with
  | some g => (g, if g.head? == some '0' then g.drop 1 else g)
  | none =>
    match findShort01 cleaned with
    | some g =>
      let g13 := padStartL 13 '0' g
      (padStartL 14 '0' g13, g13)
    | none => ([], [])

/-- Expiry extraction: `(iso, formatted, status)`. -/
def expiryTriple (today : Int) (cleaned : Str) : Str × Str × Str :=
  match findFixed "17".data 6 cleaned with
  | some e =>
    let p := parseGS1Date e
    (p.iso, p.formatted, getExpiryStatus today p.iso)
  | none => ([], [], "missing".data)

def batchOf (cleaned : Str) : Str :=
  match findVar "10".data cleaned with
  | some b => jsTrim b
  | none => []

def serialOf (cleaned : Str) : Str :=
  match findVar "21".data cleaned with
  | some b => jsTrim b
  | none => []

def qtyOf (cleaned : Str) : Str :=
  match find30 cleaned with
  | some q => q
  | none => "1".data

/-- The field-extraction body of `parseGs1` on the cleaned string (the raw
input echoed in the result is supplied separately by `extractFields`). -/
def extractCore (today : Int) (cleaned : Str) : ParsedScan :=
  if (gtinPair cleaned).1.isEmpty && (gtinPair cleaned).2.isEmpty then
    { valid := false, raw := [], gtin14 := (gtinPair cleaned).1
      gtin13 := (gtinPair cleaned).2, expiry := (expiryTriple today cleaned).1
      expiryFormatted := (expiryTriple today cleaned).2.1
      expiryStatus := (expiryTriple today cleaned).2.2
      batch := batchOf cleaned, serial := serialOf cleaned, qty := qtyOf cleaned
      productName := [], matchType := some "INVALID".data
      error := some "No valid GTIN found".data }
  else
    { valid := true, raw := [], gtin14 := (gtinPair cleaned).1
      gtin13 := (gtinPair cleaned).2, expiry := (expiryTriple today cleaned).1
      expiryFormatted := (expiryTriple today cleaned).2.1
      expiryStatus := (expiryTriple today cleaned).2.2
      batch := batchOf cleaned, serial := serialOf cleaned, qty := qtyOf cleaned
      productName := [], matchType := some "NONE".data, error := none }

def extractFields (today : Int) (origRaw cleaned : Str) : ParsedScan :=
  { extractCore today cleaned with raw := origRaw }

/-- A JS value handed to `parseGs1`: a string, or any non-string value
(rejected by the `typeof raw !== 'string'` guard; falsy non-strings are
equally rejected by `!raw`). -/
inductive JSVal where
  | str (s : Str)
  | nonstr
deriving DecidableEq

/-- The cleaning pipeline of `parseGs1`: trim, normalize the ASCII group
separator 0x1D to `|`, and decode to bracketed form when the input holds
no `(` yet. -/
def cleanedOf (s : Str) : Str :=
  let cleaned0 := (jsTrim s).map fun c => if c == Char.ofNat 29 then '|' else c
  if cleaned0.contains '(' then cleaned0
  else convertRawToParenthesized cleaned0

/-- `parseGs1(raw)` with "today" made an explicit parameter. -/
def parseGs1 (today : Int) (v : JSVal) : ParsedScan :=
  match v with
  | .nonstr => emptyInputScan
  | .str s =>
    if s.isEmpty then emptyInputScan
    else extractFields today s (cleanedOf s)

-- ===========================================================================
-- Master index builder (`buildMasterIndex`) and matcher (`matchProduct`)
-- ===========================================================================

/-- JS `Map.set`: overwrite in place when the key exists, else append. -/
def mapSet (m : List (Str × Str)) (k v : Str) : List (Str × Str) :=
  if m.any fun p => p.1 == k then
    m.map fun p => if p.1 == k then (k, v) else p
  else m ++ [(k, v)]

/-- JS `Map.has`/`Map.get` combined: the stored value when present. -/
def mapGet (m : List (Str × Str)) (k : Str) : Option Str :=
  (m.find? fun p => p.1 == k).map fun p => p.2

/-- `Map.get` on the last-8 multimap. -/
def mmapGet (m : List (Str × List (Str × Str))) (k : Str) :
    Option (List (Str × Str)) :=
  (m.find? fun p => p.1 == k).map fun p => p.2

/-- The `last8` update: create the bucket if absent, then push. -/
def mmapAppend (m : List (Str × List (Str × Str))) (k : Str) (e : Str × Str) :
    List (Str × List (Str × Str)) :=
  if m.any fun p => p.1 == k then
    m.map fun p => if p.1 == k then (p.1, p.2 ++ [e]) else p
  else m ++ [(k, [e])]

structure MasterIndex where
  exact : List (Str × Str)
  last8 : List (Str × List (Str × Str))
deriving DecidableEq

/-- `buildMasterIndex(data)`: canonicalize each row's GTIN (strip non-digits,
left-pad with zeros to 14), insert into the exact map (plus the 13-digit
form when the canonical GTIN starts with `0`), and append to the last-8
bucket. -/
def buildMasterIndex (data : List (Str × Str)) : MasterIndex :=
  data.foldl
    (fun index item =>
      let gtin := padStartL 14 '0' (item.1.filter Char.isDigit)
      let name := item.2
      let e1 := mapSet index.exact gtin name
      let e2 := if gtin.head? == some '0' then mapSet e1 (gtin.drop 1) name else e1
      { exact := e2, last8 := mmapAppend index.last8 (sliceLast 8 gtin) (gtin, name) })
    { exact := [], last8 := [] }

structure MatchResult where
  name : Str
  matchType : Str
deriving DecidableEq, Repr

/-- The contiguous 6-character windows of the last-10 slice
(`for (let i = 0; i <= last10.length - 6; i++)`). -/
def windowsOf (s : Str) : List Str :=
  if s.length < 6 then []
  else (List.range (s.length - 6 + 1)).map fun i => (s.drop i).take 6

/-- The dedup-by-gtin push into `seq6Matches`. -/
def seq6Insert (acc : List (Str × Str)) (g n : Str) : List (Str × Str) :=
  if acc.any fun m => m.1 == g then acc else acc ++ [(g, n)]

/-- One window of the SEQ6 loop: scan every exact-map entry in order. -/
def seq6Step (exact : List (Str × Str)) (acc : List (Str × Str)) (w : Str) :
    List (Str × Str) :=
  exact.foldl (fun a p => if containsSub p.1 w then seq6Insert a p.1 p.2 else a) acc

/-- The full `seq6Matches` accumulation of `matchProduct` tier 4. -/
def seq6Scan (exact : List (Str × Str)) (last10 : Str) : List (Str × Str) :=
  (windowsOf last10).foldl (seq6Step exact) []

/-- Tier 4 of `matchProduct` (reached when the last-8 tier decided nothing). -/
def tier4 (parsed : ParsedScan) (index : MasterIndex) : MatchResult :=
  let ms := seq6Scan index.exact (sliceLast 10 parsed.gtin14)
  if ms.length == 1 then ⟨(ms.headD ([], [])).2, "SEQ6".data⟩
  else if 1 < ms.length then ⟨[], "AMBIGUOUS-SEQ6".data⟩
  else ⟨[], "NONE".data⟩

/-- `matchProduct(parsed, index)`: the tiered matching policy. -/
def matchProduct (parsed : ParsedScan) (index : MasterIndex) : MatchResult :=
  if !parsed.valid then ⟨[], "INVALID".data⟩
  else if index.exact.isEmpty then ⟨[], "NONE".data⟩
  else
    match mapGet index.exact parsed.gtin14 with
    | some n => ⟨n, "EXACT".data⟩
    | none =>
      match mapGet index.exact parsed.gtin13 with
      | some n => ⟨n, "EXACT".data⟩
      | none =>
        match mmapGet index.last8 (sliceLast 8 parsed.gtin14) with
        | some bucket =>
          if bucket.length == 1 then ⟨(bucket.headD ([], [])).2, "LAST8".data⟩
          else if 1 < bucket.length then ⟨[], "AMBIGUOUS-LAST8".data⟩
          else tier4 parsed index
        | none => tier4 parsed index

/-- The scan-record match type of `processScan`
(`parsed.valid ? match.matchType : 'INVALID'`). -/
def entryMatchType (parsed : ParsedScan) (index : MasterIndex) : Str :=
  if parsed.valid then (matchProduct parsed index).matchType else "INVALID".data

-- ===========================================================================
-- Spec-side definitions used to state the claims
-- ===========================================================================

/-- Rank of an expiry status along the `expired → soon → ok` order. -/
def statusRank (s : Str) : Nat :=
  if s = "expired".data then 0 else if s = "soon".data then 1 else 2

/-- The exact-map entries whose key contains one of the 6-digit windows of
the scan's last-10 slice (the candidate set tier 4 counts, stated
directly as a filter). -/
def seq6Candidates (exact : List (Str × Str)) (last10 : Str) : List (Str × Str) :=
  exact.filter fun p => (windowsOf last10).any fun w => containsSub p.1 w

/-- A well-formed fixed-length token for the round-trip property: its code
has a positive dictionary length, and its value has exactly that length
and is all digits. -/
def fixedTokB (t : Str × Str) : Bool :=
  match aiLengths t.1 with
  | some L => decide (0 < L) && (t.2.length == L) && t.2.all Char.isDigit
  | none => false

/-- The un-bracketed concatenation of a token list. -/
def rawOfToks (ts : List (Str × Str)) : Str :=
  (ts.map fun t => t.1 ++ t.2).flatten

/-- The equivalent hand-written bracketed string of a token list. -/
def bracketedOfToks (ts : List (Str × Str)) : Str :=
  (ts.map fun t => '(' :: t.1 ++ [')'] ++ t.2).flatten

-- ===========================================================================
-- Projection lemmas for the extractor
-- ===========================================================================

theorem extractCore_gtin14 (t : Int) (c : Str) :
    (extractCore t c).gtin14 = (gtinPair c).1 := by
  unfold extractCore; split <;> rfl

theorem extractCore_gtin13 (t : Int) (c : Str) :
    (extractCore t c).gtin13 = (gtinPair c).2 := by
  unfold extractCore; split <;> rfl

theorem extractCore_expiry (t : Int) (c : Str) :
    (extractCore t c).expiry = (expiryTriple t c).1 := by
  unfold extractCore; split <;> rfl

theorem extractCore_expiryFormatted (t : Int) (c : Str) :
    (extractCore t c).expiryFormatted = (expiryTriple t c).2.1 := by
  unfold extractCore; split <;> rfl

theorem extractCore_expiryStatus (t : Int) (c : Str) :
    (extractCore t c).expiryStatus = (expiryTriple t c).2.2 := by
  unfold extractCore; split <;> rfl

theorem extractCore_batch (t : Int) (c : Str) :
    (extractCore t c).batch = batchOf c := by
  unfold extractCore; split <;> rfl

theorem extractCore_serial (t : Int) (c : Str) :
    (extractCore t c).serial = serialOf c := by
  unfold extractCore; split <;> rfl

theorem extractCore_qty (t : Int) (c : Str) :
    (extractCore t c).qty = qtyOf c := by
  unfold extractCore; split <;> rfl

theorem extractCore_valid (t : Int) (c : Str) :
    (extractCore t c).valid = !((gtinPair c).1.isEmpty && (gtinPair c).2.isEmpty) := by
  unfold extractCore
  split
  · next h => simp [h]
  · next h =>
    simp only [Bool.not_eq_true] at h
    simp [h]

theorem extractCore_matchType (t : Int) (c : Str) :
    (extractCore t c).matchType =
      some (if (gtinPair c).1.isEmpty && (gtinPair c).2.isEmpty
            then "INVALID".data else "NONE".data) := by
  unfold extractCore
  split
  · next h => simp [h]
  · next h =>
    simp only [Bool.not_eq_true] at h
    simp [h]

theorem extractCore_error (t : Int) (c : Str) :
    (extractCore t c).error =
      (if (gtinPair c).1.isEmpty && (gtinPair c).2.isEmpty
       then some "No valid GTIN found".data else none) := by
  unfold extractCore
  split
  · next h => simp [h]
  · next h =>
    simp only [Bool.not_eq_true] at h
    simp [h]

theorem parseGs1_str (today : Int) (s : Str) (h : s ≠ []) :
    parseGs1 today (.str s) = extractFields today s (cleanedOf s) := by
  show (if List.isEmpty s = true then emptyInputScan else extractFields today s (cleanedOf s)) = _
  rw [if_neg]
  simp [h]

theorem extractFields_gtin14 (t : Int) (r c : Str) :
    (extractFields t r c).gtin14 = (gtinPair c).1 := extractCore_gtin14 t c

theorem extractFields_gtin13 (t : Int) (r c : Str) :
    (extractFields t r c).gtin13 = (gtinPair c).2 := extractCore_gtin13 t c

-- ===========================================================================
-- Lemmas about the search functions
-- ===========================================================================

theorem findFixed_some_len {code : Str} {k : Nat} :
    ∀ {s g : Str}, findFixed code k s = some g → g.length = k := by
  intro s
  induction s with
  | nil => intro g h; simp [findFixed] at h
  | cons c rest ih =>
    intro g h
    rw [findFixed] at h
    split at h
    · next hcond =>
      simp only [Option.some.injEq] at h
      subst h
      simp only [Bool.and_eq_true, beq_iff_eq] at hcond
      exact hcond.1.2
    · exact ih h

theorem findShort01_some_len :
    ∀ {s g : Str}, findShort01 s = some g → g.length = 13 ∨ g.length = 12 := by
  intro s
  induction s with
  | nil => intro g h; simp [findShort01] at h
  | cons c rest ih =>
    intro g h
    rw [findShort01] at h
    split at h
    · split at h
      · next hcond =>
        simp only [Option.some.injEq] at h
        subst h
        simp only [Bool.and_eq_true, beq_iff_eq] at hcond
        exact Or.inl hcond.1
      · split at h
        · next hcond =>
          simp only [Option.some.injEq] at h
          subst h
          simp only [Bool.and_eq_true, beq_iff_eq] at hcond
          exact Or.inr hcond.1
        · exact ih h
    · exact ih h

theorem padStartL_length (n : Nat) (c : Char) (s : Str) :
    (padStartL n c s).length = max n s.length := by
  simp [padStartL]
  omega

theorem padStartL_of_length_eq (c : Char) (s : Str) (n : Nat)
    (h : s.length = n) : padStartL (n + 1) c s = c :: s := by
  unfold padStartL
  have h1 : n + 1 - s.length = 1 := by omega
  rw [h1]
  rfl

theorem isPrefixOf_append_self (l t : Str) : l.isPrefixOf (l ++ t) = true := by
  induction l with
  | nil => simp
  | cons a as ih => simp [List.isPrefixOf_cons₂, ih]

theorem findFixed_append_no_paren (code : Str) (k : Nat) (p t : Str)
    (hp : ∀ c ∈ p, c ≠ '(') :
    findFixed code k (p ++ t) = findFixed code k t := by
  induction p with
  | nil => rfl
  | cons c ps ih =>
    have hc : c ≠ '(' := hp c (List.mem_cons_self c ps)
    rw [List.cons_append, findFixed]
    have hpre : (('(' :: code) ++ [')']).isPrefixOf (c :: (ps ++ t)) = false := by
      rw [List.cons_append, List.isPrefixOf_cons₂]
      have hb : ('(' == c) = false := by
        simp only [beq_eq_false_iff_ne, ne_eq]
        exact fun hh => hc hh.symm
      rw [hb, Bool.false_and]
    simp only [hpre, Bool.false_and, Bool.false_eq_true, if_false]
    exact ih fun x hx => hp x (List.mem_cons_of_mem c hx)

theorem findFixed_hit (code : Str) (k : Nat) (d rest : Str)
    (hd : ∀ c ∈ d, c.isDigit = true) (hk : k ≤ d.length) :
    findFixed code k ((('(' :: code) ++ [')']) ++ (d ++ rest)) = some (d.take k) := by
  rw [List.cons_append, List.cons_append, findFixed]
  have hpre : (('(' :: code) ++ [')']).isPrefixOf
      ('(' :: ((code ++ [')']) ++ (d ++ rest))) = true := by
    rw [List.cons_append, List.isPrefixOf_cons₂, List.append_assoc]
    simp [isPrefixOf_append_self]
  have hdrop : ('(' :: ((code ++ [')']) ++ (d ++ rest))).drop (code.length + 2) =
      d ++ rest := by
    rw [← List.cons_append]
    have hl : code.length + 2 = ('(' :: (code ++ [')'])).length := by
      simp
    rw [hl, List.drop_left]
  have hcap : (('(' :: ((code ++ [')']) ++ (d ++ rest))).drop (code.length + 2)).take k
      = d.take k := by
    rw [hdrop]
    exact List.take_append_of_le_length hk
  have hlen : ((d.take k).length == k) = true := by
    simp only [List.length_take, beq_iff_eq]
    omega
  have hall : (d.take k).all Char.isDigit = true := by
    simp only [List.all_eq_true]
    exact fun c hc => hd c (List.take_subset k d hc)
  simp only [hpre, hcap, Bool.true_and, hlen, hall, Bool.and_self, if_pos]

theorem isDigit_ne_paren {c : Char} (h : c.isDigit = true) : c ≠ '(' := by
  intro hh
  subst hh
  simp at h

theorem findFixed01_miss_short (d : Str)
    (hd : ∀ c ∈ d, c.isDigit = true) (hlen : d.length < 14) :
    findFixed "01".data 14 ("(01)".data ++ d) = none := by
  rw [show ("(01)".data ++ d) = '(' :: (("01".data ++ [')']) ++ d) from by
    simp]
  rw [findFixed]
  have hdrop : ('(' :: (("01".data ++ [')']) ++ d)).drop ("01".data.length + 2) = d := by
    rw [← List.cons_append]
    have hl : "01".data.length + 2 = ('(' :: ("01".data ++ [')'])).length := by simp
    rw [hl, List.drop_left]
  have hlen2 : (((('(' :: (("01".data ++ [')']) ++ d)).drop
      ("01".data.length + 2)).take 14).length == 14) = false := by
    rw [hdrop]
    simp only [List.length_take, beq_eq_false_iff_ne, ne_eq]
    omega
  simp only [hlen2, Bool.and_false, Bool.false_and, Bool.false_eq_true, if_false]
  have hnp : ∀ c ∈ ("01".data ++ [')']) ++ d, c ≠ '(' := by
    intro c hc
    rcases List.mem_append.mp hc with h | h
    · rcases List.mem_append.mp h with h2 | h2
      · rw [show "01".data = ['0', '1'] from rfl] at h2
        simp only [List.mem_cons, List.mem_singleton] at h2
        rcases h2 with rfl | h3
        · decide
        · simp only [List.not_mem_nil, or_false] at h3
          subst h3
          decide
      · simp only [List.mem_singleton] at h2
        subst h2
        decide
    · exact isDigit_ne_paren (hd c h)
  have hrw := findFixed_append_no_paren "01".data 14 (("01".data ++ [')']) ++ d) [] hnp
  rw [List.append_nil] at hrw
  rw [hrw]
  rfl

theorem findShort01_append_no_paren (p t : Str) (hp : ∀ c ∈ p, c ≠ '(') :
    findShort01 (p ++ t) = findShort01 t := by
  induction p with
  | nil => rfl
  | cons c ps ih =>
    have hc : c ≠ '(' := hp c (List.mem_cons_self c ps)
    rw [List.cons_append, findShort01]
    have hpre : "(01)".data.isPrefixOf (c :: (ps ++ t)) = false := by
      rw [show "(01)".data = '(' :: ['0', '1', ')'] from rfl, List.isPrefixOf_cons₂]
      have hb : ('(' == c) = false := by
        simp only [beq_eq_false_iff_ne, ne_eq]
        exact fun hh => hc hh.symm
      rw [hb, Bool.false_and]
    simp only [hpre, Bool.false_eq_true, if_false]
    exact ih fun x hx => hp x (List.mem_cons_of_mem c hx)

theorem findShort01_hit (d : Str) (hd : ∀ c ∈ d, c.isDigit = true)
    (h1213 : d.length = 13 ∨ d.length = 12) :
    findShort01 ("(01)".data ++ d) = some d := by
  rw [show ("(01)".data ++ d) = '(' :: (('0' :: '1' :: ')' :: []) ++ d) from by simp]
  rw [findShort01]
  have hpre : "(01)".data.isPrefixOf ('(' :: (('0' :: '1' :: ')' :: []) ++ d)) = true := by
    rw [show ('(' :: (('0' :: '1' :: ')' :: []) ++ d)) = "(01)".data ++ d from by simp]
    exact isPrefixOf_append_self _ _
  have hdrop : ('(' :: (('0' :: '1' :: ')' :: []) ++ d)).drop 4 = d := by
    simp
  have hall : d.all Char.isDigit = true := List.all_eq_true.mpr hd
  have htake13 : d.take 13 = d := List.take_of_length_le (by omega)
  rw [hpre, if_pos rfl, hdrop]
  rcases h1213 with h | h
  · rw [htake13]
    rw [if_pos]
    simp [h, hall]
  · have htake12 : d.take 12 = d := List.take_of_length_le (by omega)
    rw [htake13, htake12]
    rw [if_neg, if_pos]
    · simp [h, hall]
    · simp [h]

-- ===========================================================================
-- Lemmas about the SEQ6 accumulation (tier 4)
-- ===========================================================================

theorem key_eq_of_mem {l : List (Str × Str)} (h : (l.map Prod.fst).Nodup)
    {a b : Str × Str} (ha : a ∈ l) (hb : b ∈ l) (hk : a.1 = b.1) : a = b :=
  List.inj_on_of_nodup_map h ha hb hk

theorem mem_seq6Insert_iff {exact : List (Str × Str)}
    (hknd : (exact.map Prod.fst).Nodup) {acc : List (Str × Str)}
    (hacc : ∀ x ∈ acc, x ∈ exact) {p : Str × Str} (hpx : p ∈ exact)
    (e : Str × Str) :
    e ∈ seq6Insert acc p.1 p.2 ↔ e ∈ acc ∨ e = p := by
  unfold seq6Insert
  split
  · next hany =>
    constructor
    · exact Or.inl
    · rintro (h | rfl)
      · exact h
      · simp only [List.any_eq_true, beq_iff_eq] at hany
        obtain ⟨q, hq, hqk⟩ := hany
        have hqe : q = e := key_eq_of_mem hknd (hacc q hq) hpx hqk
        rwa [hqe] at hq
  · simp [Prod.mk.eta, List.mem_append]

theorem seq6Fold_mem (w : Str) {exact : List (Str × Str)}
    (hknd : (exact.map Prod.fst).Nodup) :
    ∀ l : List (Str × Str), (∀ x ∈ l, x ∈ exact) →
      ∀ acc : List (Str × Str), (∀ x ∈ acc, x ∈ exact) → ∀ e : Str × Str,
      (e ∈ l.foldl
          (fun a p => if containsSub p.1 w then seq6Insert a p.1 p.2 else a) acc ↔
        e ∈ acc ∨ (e ∈ l ∧ containsSub e.1 w = true)) := by
  intro l
  induction l with
  | nil =>
    intro _ acc _ e
    simp
  | cons p l2 ih =>
    intro hl acc hacc e
    have hpx : p ∈ exact := hl p (List.mem_cons_self p l2)
    have hl2 : ∀ x ∈ l2, x ∈ exact := fun x hx => hl x (List.mem_cons_of_mem p hx)
    simp only [List.foldl_cons]
    by_cases hw : containsSub p.1 w = true
    · rw [if_pos hw]
      have hacc2 : ∀ x ∈ seq6Insert acc p.1 p.2, x ∈ exact := by
        intro x hx
        rcases (mem_seq6Insert_iff hknd hacc hpx x).mp hx with h | h
        · exact hacc x h
        · exact h ▸ hpx
      rw [ih hl2 (seq6Insert acc p.1 p.2) hacc2 e,
        mem_seq6Insert_iff hknd hacc hpx e]
      constructor
      · rintro ((h | rfl) | ⟨h, hc⟩)
        · exact Or.inl h
        · exact Or.inr ⟨List.mem_cons_self _ _, hw⟩
        · exact Or.inr ⟨List.mem_cons_of_mem p h, hc⟩
      · rintro (h | ⟨hm, hc⟩)
        · exact Or.inl (Or.inl h)
        · rcases List.mem_cons.mp hm with rfl | h2
          · exact Or.inl (Or.inr rfl)
          · exact Or.inr ⟨h2, hc⟩
    · rw [if_neg hw]
      rw [ih hl2 acc hacc e]
      constructor
      · rintro (h | ⟨hm, hc⟩)
        · exact Or.inl h
        · exact Or.inr ⟨List.mem_cons_of_mem p hm, hc⟩
      · rintro (h | ⟨hm, hc⟩)
        · exact Or.inl h
        · rcases List.mem_cons.mp hm with rfl | h2
          · exact absurd hc hw
          · exact Or.inr ⟨h2, hc⟩

theorem seq6Step_mem {exact : List (Str × Str)}
    (hknd : (exact.map Prod.fst).Nodup) {acc : List (Str × Str)}
    (hacc : ∀ x ∈ acc, x ∈ exact) (w : Str) (e : Str × Str) :
    e ∈ seq6Step exact acc w ↔
      e ∈ acc ∨ (e ∈ exact ∧ containsSub e.1 w = true) :=
  seq6Fold_mem w hknd exact (fun _ h => h) acc hacc e

theorem seq6Step_sub {exact : List (Str × Str)}
    (hknd : (exact.map Prod.fst).Nodup) {acc : List (Str × Str)}
    (hacc : ∀ x ∈ acc, x ∈ exact) (w : Str) :
    ∀ x ∈ seq6Step exact acc w, x ∈ exact := by
  intro x hx
  rcases (seq6Step_mem hknd hacc w x).mp hx with h | ⟨h, _⟩
  · exact hacc x h
  · exact h

theorem seq6Scan_mem {exact : List (Str × Str)}
    (hknd : (exact.map Prod.fst).Nodup) (last10 : Str) (e : Str × Str) :
    e ∈ seq6Scan exact last10 ↔
      e ∈ exact ∧ ∃ w ∈ windowsOf last10, containsSub e.1 w = true := by
  suffices h : ∀ ws : List Str, ∀ acc : List (Str × Str), (∀ x ∈ acc, x ∈ exact) →
      (e ∈ ws.foldl (seq6Step exact) acc ↔
        e ∈ acc ∨ (e ∈ exact ∧ ∃ w ∈ ws, containsSub e.1 w = true)) by
    have h2 := h (windowsOf last10) [] (by simp)
    unfold seq6Scan
    rw [h2]
    simp
  intro ws
  induction ws with
  | nil =>
    intro acc hacc
    simp
  | cons w ws2 ih =>
    intro acc hacc
    simp only [List.foldl_cons]
    rw [ih (seq6Step exact acc w) (seq6Step_sub hknd hacc w),
      seq6Step_mem hknd hacc w e]
    constructor
    · rintro ((h | ⟨hx, hc⟩) | ⟨hx, w2, hw2, hc⟩)
      · exact Or.inl h
      · exact Or.inr ⟨hx, w, List.mem_cons_self _ _, hc⟩
      · exact Or.inr ⟨hx, w2, List.mem_cons_of_mem w hw2, hc⟩
    · rintro (h | ⟨hx, w2, hw2, hc⟩)
      · exact Or.inl (Or.inl h)
      · rcases List.mem_cons.mp hw2 with rfl | h2
        · exact Or.inl (Or.inr ⟨hx, hc⟩)
        · exact Or.inr ⟨hx, w2, h2, hc⟩

theorem seq6Insert_keys_nodup {acc : List (Str × Str)}
    (h : (acc.map Prod.fst).Nodup) (g n : Str) :
    ((seq6Insert acc g n).map Prod.fst).Nodup := by
  unfold seq6Insert
  split
  · exact h
  · next hany =>
    simp only [List.map_append, List.map_cons, List.map_nil]
    rw [List.nodup_append]
    refine ⟨h, by simp, ?_⟩
    intro a ha ha2
    simp only [List.mem_singleton] at ha2
    subst ha2
    obtain ⟨p, hp, hpk⟩ := List.mem_map.mp ha
    simp only [List.any_eq_true, beq_iff_eq] at hany
    exact hany ⟨p, hp, hpk⟩

theorem seq6Fold_keys_nodup (w : Str) :
    ∀ l acc : List (Str × Str), (acc.map Prod.fst).Nodup →
      ((l.foldl
          (fun a p => if containsSub p.1 w then seq6Insert a p.1 p.2 else a)
          acc).map Prod.fst).Nodup := by
  intro l
  induction l with
  | nil =>
    intro acc h
    exact h
  | cons p l2 ih =>
    intro acc h
    simp only [List.foldl_cons]
    by_cases hw : containsSub p.1 w = true
    · rw [if_pos hw]
      exact ih _ (seq6Insert_keys_nodup h p.1 p.2)
    · rw [if_neg hw]
      exact ih _ h

theorem seq6Scan_keys_nodup (exact : List (Str × Str)) (last10 : Str) :
    ((seq6Scan exact last10).map Prod.fst).Nodup := by
  suffices h : ∀ (ws : List Str) (acc : List (Str × Str)), (acc.map Prod.fst).Nodup →
      ((ws.foldl (seq6Step exact) acc).map Prod.fst).Nodup by
    exact h (windowsOf last10) [] (by simp)
  intro ws
  induction ws with
  | nil =>
    intro acc h
    exact h
  | cons w ws2 ih =>
    intro acc h
    simp only [List.foldl_cons]
    exact ih _ (seq6Fold_keys_nodup w exact acc h)

theorem seq6Scan_perm_candidates {exact : List (Str × Str)}
    (hknd : (exact.map Prod.fst).Nodup) (last10 : Str) :
    (seq6Scan exact last10).Perm (seq6Candidates exact last10) := by
  apply (List.perm_ext_iff_of_nodup
    (List.Nodup.of_map Prod.fst (seq6Scan_keys_nodup exact last10))
    (List.Nodup.filter _ (List.Nodup.of_map Prod.fst hknd))).mpr
  intro e
  rw [seq6Scan_mem hknd, List.mem_filter]
  simp only [List.any_eq_true]

-- ===========================================================================
-- Lemmas about the decoder on token boundaries
-- ===========================================================================

theorem matchAi_three (s : Str) (h3 : 3 ≤ s.length) {n : Nat}
    (hl : aiLengths (s.take 3) = some n) : matchAi s = some (s.take 3, n) := by
  unfold matchAi
  rw [if_pos h3, hl]

theorem matchAi_two_of (s : Str) (h3 : 3 ≤ s.length)
    (hl3 : aiLengths (s.take 3) = none) {n : Nat}
    (hl2 : aiLengths (s.take 2) = some n) : matchAi s = some (s.take 2, n) := by
  unfold matchAi
  rw [if_pos h3, hl3, if_pos (by omega), hl2]

theorem matchAi_len2 (s : Str) (hlen : s.length = 2) {n : Nat}
    (hl2 : aiLengths (s.take 2) = some n) : matchAi s = some (s.take 2, n) := by
  unfold matchAi
  rw [if_neg (by omega), if_pos (by omega), hl2]

theorem decodePart_var {ai v : Str} (hm : matchAi (ai ++ v) = some (ai, 0))
    (hne : ai ≠ []) :
    decodePart (ai ++ v) = '(' :: ai ++ [')'] ++ v := by
  have hne2 : ai ++ v ≠ [] := by
    simp only [ne_eq, List.append_eq_nil]
    exact fun hh => hne hh.1
  rw [decodePart_unfold _ hne2]
  unfold decodeStep
  rw [hm]
  simp only [lt_irrefl, if_false, Nat.lt_irrefl]
  rw [List.drop_left, List.drop_length]
  have hlen : (ai ++ v).length - ai.length = v.length := by
    simp only [List.length_append]
    omega
  rw [hlen, List.take_length]
  rw [show decodePart ([] : Str) = [] from rfl, List.append_nil]

theorem decodePart_fixed {ai v rest : Str} {n : Nat} (hn : 0 < n)
    (hv : v.length = n) (hm : matchAi (ai ++ v ++ rest) = some (ai, n))
    (hne : ai ≠ []) :
    decodePart (ai ++ v ++ rest) = '(' :: ai ++ [')'] ++ v ++ decodePart rest := by
  have hne2 : ai ++ v ++ rest ≠ [] := by
    simp only [ne_eq, List.append_eq_nil]
    exact fun hh => hne hh.1.1
  rw [decodePart_unfold _ hne2]
  unfold decodeStep
  rw [hm]
  dsimp only
  rw [if_pos hn]
  have hmin : min (ai.length + n) (ai ++ v ++ rest).length = ai.length + n := by
    simp only [List.length_append]
    omega
  rw [hmin]
  have hdropAi : (ai ++ v ++ rest).drop ai.length = v ++ rest := by
    rw [List.append_assoc]
    exact List.drop_left ai _
  have htail : ai.length + n - ai.length = n := by omega
  rw [hdropAi, htail]
  have hval : (v ++ rest).take n = v := by
    rw [List.take_append_of_le_length (by omega), ← hv, List.take_length]
  have hdropEnd : (ai ++ v ++ rest).drop (ai.length + n) = rest := by
    have hlav : ai.length + n = (ai ++ v).length := by
      simp only [List.length_append]
      omega
    rw [hlav, List.drop_left]
  rw [hval, hdropEnd]

theorem decodePart_var_code (c : Str) (hlen : c.length = 2)
    (hc0 : aiLengths c = some 0)
    (hext : ∀ x : Char, aiLengths (c ++ [x]) = none) :
    ∀ v : Str, decodePart (c ++ v) = '(' :: c ++ [')'] ++ v := by
  intro v
  have hcne : c ≠ [] := by
    intro hh
    rw [hh] at hlen
    simp at hlen
  cases v with
  | nil =>
    have htk : c.take 2 = c := List.take_of_length_le (by omega)
    have hm : matchAi (c ++ []) = some (c, 0) := by
      rw [List.append_nil]
      have := matchAi_len2 c hlen (htk ▸ hc0)
      rwa [htk] at this
    exact decodePart_var hm hcne
  | cons x v2 =>
    have h3 : 3 ≤ (c ++ x :: v2).length := by
      simp only [List.length_append, List.length_cons, hlen]
      omega
    have htake3 : (c ++ x :: v2).take 3 = c ++ [x] := by
      rw [List.take_append_eq_append_take, List.take_of_length_le (by omega), hlen]
      rfl
    have htake2 : (c ++ x :: v2).take 2 = c := by
      rw [List.take_append_eq_append_take, List.take_of_length_le (by omega), hlen]
      simp
    have hm : matchAi (c ++ x :: v2) = some (c, 0) := by
      have := matchAi_two_of (c ++ x :: v2) h3 (by rw [htake3]; exact hext x)
        (by rw [htake2]; exact hc0)
      rwa [htake2] at this
    exact decodePart_var hm hcne

theorem decodePart_var_code3 (c : Str) (hlen : c.length = 3)
    (hc0 : aiLengths c = some 0) :
    ∀ v : Str, decodePart (c ++ v) = '(' :: c ++ [')'] ++ v := by
  intro v
  have hcne : c ≠ [] := by
    intro hh
    rw [hh] at hlen
    simp at hlen
  have h3 : 3 ≤ (c ++ v).length := by
    simp only [List.length_append, hlen]
    omega
  have htake3 : (c ++ v).take 3 = c := by
    rw [List.take_append_eq_append_take, List.take_of_length_le (by omega), hlen]
    simp
  have hm : matchAi (c ++ v) = some (c, 0) := by
    have := matchAi_three (c ++ v) h3 (by rw [htake3]; exact hc0)
    rwa [htake3] at this
  exact decodePart_var hm hcne

theorem decodePart_fixed_code (c : Str) (hlen : c.length = 2) {L : Nat}
    (hL : 0 < L) (hcL : aiLengths c = some L)
    (hext : ∀ x : Char, aiLengths (c ++ [x]) = none) :
    ∀ v rest : Str, v.length = L →
      decodePart (c ++ v ++ rest) = '(' :: c ++ [')'] ++ v ++ decodePart rest := by
  intro v rest hv
  have hcne : c ≠ [] := by
    intro hh
    rw [hh] at hlen
    simp at hlen
  cases v with
  | nil =>
    rw [List.length_nil] at hv
    omega
  | cons x v2 =>
    have h3 : 3 ≤ (c ++ (x :: (v2 ++ rest))).length := by
      simp only [List.length_append, List.length_cons, hlen]
      omega
    have htake3 : (c ++ (x :: (v2 ++ rest))).take 3 = c ++ [x] := by
      rw [List.take_append_eq_append_take, List.take_of_length_le (by omega), hlen]
      rfl
    have htake2 : (c ++ (x :: (v2 ++ rest))).take 2 = c := by
      rw [List.take_append_eq_append_take, List.take_of_length_le (by omega), hlen]
      simp
    have hm : matchAi (c ++ x :: v2 ++ rest) = some (c, L) := by
      rw [List.append_assoc, List.cons_append]
      have := matchAi_two_of (c ++ (x :: (v2 ++ rest))) h3
        (by rw [htake3]; exact hext x) (by rw [htake2]; exact hcL)
      rw [htake2] at this
      exact this
    exact decodePart_fixed hL hv hm hcne

-- ===========================================================================
-- Lemmas for the round-trip property
-- ===========================================================================

theorem aiLengths_pos_cases {c : Str} {L : Nat} (h : aiLengths c = some L)
    (hL : 0 < L) :
    c ∈ ["01".data, "02".data, "11".data, "12".data, "13".data, "15".data,
         "16".data, "17".data, "20".data] := by
  unfold aiLengths at h
  cases hf : aiDict.find? fun p => p.1 == c with
  | none =>
    rw [hf] at h
    simp at h
  | some q =>
    rw [hf] at h
    simp only [Option.map_some', Option.some.injEq] at h
    have hq := List.mem_of_find?_eq_some hf
    have hqc := List.find?_some hf
    simp only [beq_iff_eq] at hqc
    rw [← hqc]
    simp only [aiDict, List.mem_cons, List.not_mem_nil, or_false] at hq
    rcases hq with rfl|rfl|rfl|rfl|rfl|rfl|rfl|rfl|rfl|rfl|rfl|rfl|rfl|rfl|rfl|rfl|rfl|rfl|rfl <;>
      first
        | decide
        | (exfalso; simp only at h; omega)

theorem fixed_code_facts {c : Str} {L : Nat} (h : aiLengths c = some L)
    (hL : 0 < L) :
    c.length = 2 ∧ (∀ x ∈ c, x.isDigit = true) ∧
      (∀ x : Char, aiLengths (c ++ [x]) = none) := by
  have hmem := aiLengths_pos_cases h hL
  fin_cases hmem <;> exact ⟨by decide, by decide, fun x => rfl⟩

theorem fixedTok_facts {t : Str × Str} (h : fixedTokB t = true) :
    ∃ L, aiLengths t.1 = some L ∧ 0 < L ∧ t.2.length = L ∧
      (∀ x ∈ t.2, x.isDigit = true) := by
  unfold fixedTokB at h
  cases haL : aiLengths t.1 with
  | none =>
    rw [haL] at h
    simp at h
  | some L =>
    rw [haL] at h
    simp only [Bool.and_eq_true, decide_eq_true_eq, beq_iff_eq,
      List.all_eq_true] at h
    exact ⟨L, rfl, h.1.1, h.1.2, h.2⟩

theorem rawOfToks_cons (t : Str × Str) (ts : List (Str × Str)) :
    rawOfToks (t :: ts) = t.1 ++ t.2 ++ rawOfToks ts := by
  simp [rawOfToks, List.append_assoc]

theorem bracketedOfToks_cons (t : Str × Str) (ts : List (Str × Str)) :
    bracketedOfToks (t :: ts) = '(' :: t.1 ++ [')'] ++ t.2 ++ bracketedOfToks ts := by
  simp [bracketedOfToks, List.append_assoc]

theorem decodePart_toks : ∀ ts : List (Str × Str),
    (∀ t ∈ ts, fixedTokB t = true) →
    decodePart (rawOfToks ts) = bracketedOfToks ts := by
  intro ts
  induction ts with
  | nil => intro _; rfl
  | cons t ts2 ih =>
    intro hwf
    obtain ⟨L, haL, hL, hvlen, hvdig⟩ :=
      fixedTok_facts (hwf t (List.mem_cons_self t ts2))
    obtain ⟨hclen, hcdig, hext⟩ := fixed_code_facts haL hL
    rw [rawOfToks_cons, bracketedOfToks_cons]
    rw [decodePart_fixed_code t.1 hclen hL haL hext t.2 (rawOfToks ts2) hvlen]
    rw [ih fun x hx => hwf x (List.mem_cons_of_mem t hx)]

theorem rawOfToks_digits {ts : List (Str × Str)}
    (hwf : ∀ t ∈ ts, fixedTokB t = true) :
    ∀ c ∈ rawOfToks ts, c.isDigit = true := by
  intro c hc
  unfold rawOfToks at hc
  rw [List.mem_flatten] at hc
  obtain ⟨seg, hseg, hcse⟩ := hc
  obtain ⟨t, ht, rfl⟩ := List.mem_map.mp hseg
  obtain ⟨L, haL, hL, hvlen, hvdig⟩ := fixedTok_facts (hwf t ht)
  obtain ⟨hclen, hcdig, hext⟩ := fixed_code_facts haL hL
  rcases List.mem_append.mp hcse with h | h
  · exact hcdig c h
  · exact hvdig c h

theorem bracketedOfToks_chars {ts : List (Str × Str)}
    (hwf : ∀ t ∈ ts, fixedTokB t = true) :
    ∀ c ∈ bracketedOfToks ts, c.isDigit = true ∨ c = '(' ∨ c = ')' := by
  intro c hc
  unfold bracketedOfToks at hc
  rw [List.mem_flatten] at hc
  obtain ⟨seg, hseg, hcse⟩ := hc
  obtain ⟨t, ht, rfl⟩ := List.mem_map.mp hseg
  obtain ⟨L, haL, hL, hvlen, hvdig⟩ := fixedTok_facts (hwf t ht)
  obtain ⟨hclen, hcdig, hext⟩ := fixed_code_facts haL hL
  rcases List.mem_append.mp hcse with h | h
  · rcases List.mem_append.mp h with h2 | h2
    · rcases List.mem_cons.mp h2 with rfl | h3
      · exact Or.inr (Or.inl rfl)
      · exact Or.inl (hcdig c h3)
    · simp only [List.mem_singleton] at h2
      exact Or.inr (Or.inr h2)
  · exact Or.inl (hvdig c h)

theorem isDigit_ne_of {c d : Char} (h : c.isDigit = true)
    (hd : d.isDigit = false) : c ≠ d := by
  intro hh
  rw [hh] at h
  simp [h] at hd

theorem isDigit_not_space {c : Char} (h : c.isDigit = true) :
    isSpaceJs c = false := by
  cases hq : isSpaceJs c with
  | false => rfl
  | true =>
    exfalso
    simp only [isSpaceJs, Bool.or_eq_true, beq_iff_eq] at hq
    rcases hq with ((((rfl | rfl) | rfl) | rfl) | rfl) | rfl <;>
      exact absurd h (by decide)

theorem dropWhile_eq_self_of_all {f : Char → Bool} {s : Str}
    (h : ∀ c ∈ s, f c = false) : s.dropWhile f = s := by
  cases s with
  | nil => rfl
  | cons c t =>
    rw [List.dropWhile_cons, h c (List.mem_cons_self c t)]
    simp

theorem jsTrim_no_space {s : Str} (h : ∀ c ∈ s, isSpaceJs c = false) :
    jsTrim s = s := by
  unfold jsTrim
  rw [dropWhile_eq_self_of_all h,
    dropWhile_eq_self_of_all fun c hc => h c (List.mem_reverse.mp hc)]
  exact List.reverse_reverse s

theorem map_gs_id {s : Str} (h : ∀ c ∈ s, c ≠ Char.ofNat 29) :
    (s.map fun c => if c == Char.ofNat 29 then '|' else c) = s := by
  induction s with
  | nil => rfl
  | cons c t ih =>
    have hc : (c == Char.ofNat 29) = false := by
      simp only [beq_eq_false_iff_ne, ne_eq]
      exact h c (List.mem_cons_self c t)
    simp only [List.map_cons, hc, Bool.false_eq_true, if_false,
      ih fun x hx => h x (List.mem_cons_of_mem c hx)]

theorem splitOnChar_no_sep {sep : Char} {s : Str} (h : ∀ c ∈ s, c ≠ sep) :
    splitOnChar sep s = [s] := by
  induction s with
  | nil => rfl
  | cons c t ih =>
    have hc : c ≠ sep := h c (List.mem_cons_self c t)
    have iht := ih fun x hx => h x (List.mem_cons_of_mem c hx)
    unfold splitOnChar at iht ⊢
    rw [List.foldr_cons, iht]
    simp only [if_neg hc]

theorem convertRaw_toks (ts : List (Str × Str))
    (hwf : ∀ t ∈ ts, fixedTokB t = true) :
    convertRawToParenthesized (rawOfToks ts) = bracketedOfToks ts := by
  unfold convertRawToParenthesized
  rw [splitOnChar_no_sep fun c hc =>
    isDigit_ne_of (rawOfToks_digits hwf c hc) (by decide)]
  dsimp only
  rw [show ([rawOfToks ts].map decodePart).flatten = decodePart (rawOfToks ts)
    from by simp]
  rw [decodePart_toks ts hwf]
  cases ts with
  | nil => rfl
  | cons t ts2 =>
    rw [if_neg]
    rw [bracketedOfToks_cons]
    simp

theorem contains_paren_false {s : Str} (h : ∀ c ∈ s, c ≠ '(') :
    s.contains '(' = false := by
  cases hq : s.contains '(' with
  | false => rfl
  | true =>
    exfalso
    have hm : '(' ∈ s := List.elem_iff.mp hq
    exact h '(' hm rfl

theorem cleanedOf_unbracketed {s : Str} (hdig : ∀ c ∈ s, c.isDigit = true) :
    cleanedOf s = convertRawToParenthesized s := by
  unfold cleanedOf
  rw [jsTrim_no_space fun c hc => isDigit_not_space (hdig c hc)]
  rw [map_gs_id fun c hc => isDigit_ne_of (hdig c hc) (by decide)]
  dsimp only
  rw [contains_paren_false fun c hc => isDigit_ne_of (hdig c hc) (by decide)]
  rfl

theorem cleanedOf_self {s : Str}
    (hk : ∀ c ∈ s, c.isDigit = true ∨ c = '(' ∨ c = ')') (hp : '(' ∈ s) :
    cleanedOf s = s := by
  unfold cleanedOf
  have hns : ∀ c ∈ s, isSpaceJs c = false := by
    intro c hc
    rcases hk c hc with h | rfl | rfl
    · exact isDigit_not_space h
    · rfl
    · rfl
  have hng : ∀ c ∈ s, c ≠ Char.ofNat 29 := by
    intro c hc
    rcases hk c hc with h | rfl | rfl
    · exact isDigit_ne_of h (by decide)
    · decide
    · decide
  rw [jsTrim_no_space hns, map_gs_id hng]
  dsimp only
  have hcp : s.contains '(' = true := List.elem_iff.mpr hp
  rw [hcp]
  rfl

-- ===========================================================================
-- Claim theorems
-- ===========================================================================

/-- C8: for a fixed today, the expiry classifier maps a whole-day difference
below 0 to `expired`, 0..30 inclusive to `soon`, above 30 to `ok`, and is
monotone along the rank `expired → soon → ok`; on a parseable non-empty ISO
date `getExpiryStatus` is exactly this classification of the difference. -/
theorem c8_classifier_monotone :
    (∀ d : Int, d < 0 → statusOfDiff d = "expired".data) ∧
    (∀ d : Int, 0 ≤ d → d ≤ 30 → statusOfDiff d = "soon".data) ∧
    (∀ d : Int, 30 < d → statusOfDiff d = "ok".data) ∧
    (∀ (today e : Int) (iso : Str), iso ≠ [] → isoToDaysOpt iso = some e →
      getExpiryStatus today iso = statusOfDiff (e - today)) ∧
    (∀ d1 d2 : Int, d1 ≤ d2 →
      statusRank (statusOfDiff d1) ≤ statusRank (statusOfDiff d2)) := by
  refine ⟨?_, ?_, ?_, ?_, ?_⟩
  · intro d h
    unfold statusOfDiff
    rw [if_pos h]
  · intro d h1 h2
    unfold statusOfDiff
    rw [if_neg (by omega), if_pos h2]
  · intro d h
    unfold statusOfDiff
    rw [if_neg (by omega), if_neg (by omega)]
  · intro today e iso hne hsome
    unfold getExpiryStatus
    rw [if_neg (by simp [hne]), hsome]
  · intro d1 d2 h
    unfold statusOfDiff
    split_ifs <;> first | decide | omega

/-- C8 witness: the classifier evaluated at concrete differences. -/
theorem c8_witness :
    statusOfDiff (-5) = "expired".data ∧ statusOfDiff 0 = "soon".data ∧
    statusOfDiff 30 = "soon".data ∧ statusOfDiff 31 = "ok".data ∧
    statusRank (statusOfDiff 3) ≤ statusRank (statusOfDiff 40) :=
  ⟨c8_classifier_monotone.1 (-5) (by decide),
   c8_classifier_monotone.2.1 0 (by decide) (by decide),
   c8_classifier_monotone.2.1 30 (by decide) (by decide),
   c8_classifier_monotone.2.2.1 31 (by decide),
   c8_classifier_monotone.2.2.2.2 3 40 (by decide)⟩

/-- C1 counterexample: the expiry input `250231` (Feb 31) does NOT fail
normalization — the day check only requires 1..31 — so the ISO result is
the non-calendar date `2025-02-31`, and a scan carrying `(17)250231` gets
that non-empty `expiry`, contradicting the claimed empty `expiryIso`. -/
theorem c1_counterexample :
    (parseGS1Date "250231".data).iso = "2025-02-31".data ∧
    (parseGs1 0 (.str "(01)06297000001234(17)250231".data)).expiry =
      "2025-02-31".data := by decide

/-- C1 amended: `250231` normalizes successfully to `2025-02-31` (the day
bound is 1..31 independent of the month); a date that genuinely fails
normalization (month outside 1..12 or day outside 1..31, e.g. `250232`)
degrades only the expiry fields — `expiry` empty, `expiryStatus` `missing` —
while the scan's validity still depends only on the GTIN fields. -/
theorem c1_amended_malformed_date (today : Int) (s e : Str)
    (hne : s ≠ [])
    (h17 : findFixed "17".data 6 (cleanedOf s) = some e)
    (hbad : (parseGS1Date e).iso = []) :
    (parseGs1 today (.str s)).expiry = [] ∧
    (parseGs1 today (.str s)).expiryStatus = "missing".data ∧
    (parseGs1 today (.str s)).valid =
      !((parseGs1 today (.str s)).gtin14.isEmpty &&
        (parseGs1 today (.str s)).gtin13.isEmpty) ∧
    (parseGS1Date "250231".data).iso ≠ [] ∧
    (parseGS1Date "250232".data).iso = [] := by
  rw [parseGs1_str today s hne]
  have htr1 : (expiryTriple today (cleanedOf s)).1 = [] := by
    unfold expiryTriple
    rw [h17]
    simp [hbad]
  have htr2 : (expiryTriple today (cleanedOf s)).2.2 = "missing".data := by
    unfold expiryTriple
    rw [h17]
    simp only [hbad]
    rfl
  refine ⟨?_, ?_, ?_, by decide, by decide⟩
  · show (extractCore today (cleanedOf s)).expiry = []
    rw [extractCore_expiry, htr1]
  · show (extractCore today (cleanedOf s)).expiryStatus = _
    rw [extractCore_expiryStatus, htr2]
  · show (extractCore today (cleanedOf s)).valid =
      !((extractCore today (cleanedOf s)).gtin14.isEmpty &&
        (extractCore today (cleanedOf s)).gtin13.isEmpty)
    rw [extractCore_valid, extractCore_gtin14, extractCore_gtin13]

/-- C1 witness: a concrete scan with the malformed date `250232`: the scan
stays valid (GTIN present) while the expiry fields degrade to missing. -/
theorem c1_witness :
    (parseGs1 0 (.str "(01)06297000001234(17)250232".data)).expiry = [] ∧
    (parseGs1 0 (.str "(01)06297000001234(17)250232".data)).expiryStatus =
      "missing".data ∧
    (parseGs1 0 (.str "(01)06297000001234(17)250232".data)).valid =
      !((parseGs1 0 (.str "(01)06297000001234(17)250232".data)).gtin14.isEmpty &&
        (parseGs1 0 (.str "(01)06297000001234(17)250232".data)).gtin13.isEmpty) ∧
    (parseGS1Date "250231".data).iso ≠ [] ∧
    (parseGS1Date "250232".data).iso = [] :=
  c1_amended_malformed_date 0 "(01)06297000001234(17)250232".data "250232".data
    (by decide) (by decide) (by decide)

set_option maxHeartbeats 2000000 in
/-- C6: for every 6-digit date whose day digits are `00` and whose month is
1..12, normalization resolves the day to the last calendar day of that
month in year 2000+YY (`jsMonthEndDay`, i.e. `daysInMonth`); concretely
`250200` normalizes to `2025-02-28`. -/
theorem c6_day_zero :
    (parseGS1Date "250200".data).iso = "2025-02-28".data ∧
    ∀ yy mm : Nat, yy ≤ 99 → 1 ≤ mm → mm ≤ 12 →
      (parseGS1Date (padStartL 2 '0' (natToStr yy) ++ padStartL 2 '0' (natToStr mm)
          ++ "00".data)).iso =
        natToStr (2000 + yy) ++ "-".data ++ padStartL 2 '0' (natToStr mm) ++
          "-".data ++ padStartL 2 '0' (natToStr (daysInMonth (2000 + yy) mm)) := by
  constructor
  · decide
  · have aux : ∀ a : Fin 100, ∀ b : Fin 12,
        (parseGS1Date (padStartL 2 '0' (natToStr a.val) ++
            padStartL 2 '0' (natToStr (b.val + 1)) ++ "00".data)).iso =
          natToStr (2000 + a.val) ++ "-".data ++
            padStartL 2 '0' (natToStr (b.val + 1)) ++ "-".data ++
            padStartL 2 '0' (natToStr (daysInMonth (2000 + a.val) (b.val + 1))) := by
      decide
    intro yy mm h1 h2 h3
    have hx := aux ⟨yy, by omega⟩ ⟨mm - 1, by omega⟩
    simp only at hx
    have hmm : mm - 1 + 1 = mm := by omega
    rw [hmm] at hx
    exact hx

/-- C6 witness: the general day-zero rule applied at YY=25, MM=02. -/
theorem c6_witness :
    (parseGS1Date (padStartL 2 '0' (natToStr 25) ++ padStartL 2 '0' (natToStr 2)
        ++ "00".data)).iso =
      natToStr (2000 + 25) ++ "-".data ++ padStartL 2 '0' (natToStr 2) ++
        "-".data ++ padStartL 2 '0' (natToStr (daysInMonth (2000 + 25) 2)) :=
  c6_day_zero.2 25 2 (by decide) (by decide) (by decide)

/-- C9: a non-string input, an empty input, and an input with no parseable
GTIN in any form all yield an invalid ParsedScan (the functions are total,
never a thrown fault) whose scan record carries match type `INVALID` and a
human-readable error message. -/
theorem c9_invalid_input :
    (∀ (today : Int) (index : MasterIndex),
      (parseGs1 today .nonstr).valid = false ∧
      (parseGs1 today .nonstr).error = some "Empty or invalid input".data ∧
      entryMatchType (parseGs1 today .nonstr) index = "INVALID".data) ∧
    (∀ (today : Int) (index : MasterIndex),
      (parseGs1 today (.str [])).valid = false ∧
      (parseGs1 today (.str [])).error = some "Empty or invalid input".data ∧
      entryMatchType (parseGs1 today (.str [])) index = "INVALID".data) ∧
    (∀ (today : Int) (s : Str) (index : MasterIndex), s ≠ [] →
      findFixed "01".data 14 (cleanedOf s) = none →
      findShort01 (cleanedOf s) = none →
      (parseGs1 today (.str s)).valid = false ∧
      (parseGs1 today (.str s)).matchType = some "INVALID".data ∧
      (parseGs1 today (.str s)).error = some "No valid GTIN found".data ∧
      entryMatchType (parseGs1 today (.str s)) index = "INVALID".data) := by
  refine ⟨?_, ?_, ?_⟩
  · intro today index
    exact ⟨rfl, rfl, rfl⟩
  · intro today index
    exact ⟨rfl, rfl, rfl⟩
  · intro today s index hne h01 hshort
    rw [parseGs1_str today s hne]
    have hp : gtinPair (cleanedOf s) = ([], []) := by
      unfold gtinPair
      rw [h01, hshort]
    have hv : (extractFields today s (cleanedOf s)).valid = false := by
      show (extractCore today (cleanedOf s)).valid = false
      rw [extractCore_valid, hp]
      rfl
    refine ⟨hv, ?_, ?_, ?_⟩
    · show (extractCore today (cleanedOf s)).matchType = _
      rw [extractCore_matchType, hp]
      rfl
    · show (extractCore today (cleanedOf s)).error = _
      rw [extractCore_error, hp]
      rfl
    · unfold entryMatchType
      rw [hv]
      rfl

/-- C9 witness: a concrete GTIN-free input yields the invalid scan record. -/
theorem c9_witness :
    (parseGs1 0 (.str "HELLO".data)).valid = false ∧
    (parseGs1 0 (.str "HELLO".data)).matchType = some "INVALID".data ∧
    (parseGs1 0 (.str "HELLO".data)).error = some "No valid GTIN found".data ∧
    entryMatchType (parseGs1 0 (.str "HELLO".data)) (buildMasterIndex []) =
      "INVALID".data :=
  c9_invalid_input.2.2 0 "HELLO".data (buildMasterIndex [])
    (by decide) (by decide) (by decide)

/-- C4 counterexample: with `(01)` followed by a 15-digit run, the extractor
still applies the 14-digit rule and takes the first 14 digits, contradicting
the claim that the 14-digit rule requires a run of exactly 14 digits. -/
theorem c4_counterexample :
    (parseGs1 0 (.str "(01)123456789012345".data)).gtin14 =
      "12345678901234".data ∧
    (parseGs1 0 (.str "(01)123456789012345".data)).valid = true := by decide

/-- C4 amended: the extractor accepts as `gtin14` the FIRST 14 digits of any
run of at least 14 digits directly following `(01)` (not only a run of
exactly 14); when no position offers `(01)` followed by 14 digits, a 12- or
13-digit run directly following `(01)` is accepted as fallback and
left-padded with zeros to 13 then 14 digits. -/
theorem c4_amended_gtin_extraction :
    (∀ (today : Int) (p d rest : Str),
      (∀ c ∈ p, c ≠ '(') → (∀ c ∈ d, c.isDigit = true) → 14 ≤ d.length →
      (extractCore today (p ++ "(01)".data ++ d ++ rest)).gtin14 = d.take 14) ∧
    (∀ (today : Int) (p d : Str),
      (∀ c ∈ p, c ≠ '(') → (∀ c ∈ d, c.isDigit = true) →
      12 ≤ d.length → d.length ≤ 13 →
      (extractCore today (p ++ "(01)".data ++ d)).gtin13 = padStartL 13 '0' d ∧
      (extractCore today (p ++ "(01)".data ++ d)).gtin14 =
        padStartL 14 '0' (padStartL 13 '0' d)) := by
  constructor
  · intro today p d rest hp hd hk
    rw [extractCore_gtin14]
    unfold gtinPair
    have h1 : findFixed "01".data 14 (p ++ "(01)".data ++ d ++ rest) =
        some (d.take 14) := by
      rw [List.append_assoc, List.append_assoc,
        findFixed_append_no_paren _ _ p _ hp]
      rw [show "(01)".data ++ (d ++ rest) =
        (('(' :: "01".data) ++ [')']) ++ (d ++ rest) from rfl]
      exact findFixed_hit "01".data 14 d rest hd hk
    rw [h1]
  · intro today p d hp hd h12 h13
    have hmiss : findFixed "01".data 14 (p ++ "(01)".data ++ d) = none := by
      rw [List.append_assoc, findFixed_append_no_paren _ _ p _ hp]
      exact findFixed01_miss_short d hd (by omega)
    have hshort : findShort01 (p ++ "(01)".data ++ d) = some d := by
      rw [List.append_assoc, findShort01_append_no_paren p _ hp]
      exact findShort01_hit d hd (by omega)
    constructor
    · rw [extractCore_gtin13]
      unfold gtinPair
      rw [hmiss, hshort]
    · rw [extractCore_gtin14]
      unfold gtinPair
      rw [hmiss, hshort]

/-- C4 witness: a 15-digit run after `(01)` yields its first 14 digits, and
a 12-digit run falls back to the padded forms. -/
theorem c4_witness :
    (extractCore 0 (([] : Str) ++ "(01)".data ++ "123456789012345".data ++ [])).gtin14 =
      "123456789012345".data.take 14 ∧
    (extractCore 0 (([] : Str) ++ "(01)".data ++ "629700000123".data)).gtin13 =
      padStartL 13 '0' "629700000123".data ∧
    (extractCore 0 (([] : Str) ++ "(01)".data ++ "629700000123".data)).gtin14 =
      padStartL 14 '0' (padStartL 13 '0' "629700000123".data) :=
  ⟨c4_amended_gtin_extraction.1 0 [] "123456789012345".data []
      (by decide) (by decide) (by decide),
   (c4_amended_gtin_extraction.2 0 [] "629700000123".data
      (by decide) (by decide) (by decide) (by decide)).1,
   (c4_amended_gtin_extraction.2 0 [] "629700000123".data
      (by decide) (by decide) (by decide) (by decide)).2⟩

/-- C2 counterexample: a catalog with a single product (13-digit raw GTIN,
canonicalized with a leading zero) makes tier 4 count both the 14-digit key
and its 13-digit alias, so one matching product yields `AMBIGUOUS-SEQ6`,
contradicting the claim that a single matching product never does. -/
theorem c2_counterexample :
    matchProduct (parseGs1 0 (.str "(01)99991234567899".data))
        (buildMasterIndex [("1234567890123".data, "Product A".data)]) =
      ⟨[], "AMBIGUOUS-SEQ6".data⟩ ∧
    (parseGs1 0 (.str "(01)99991234567899".data)).valid = true := by decide

/-- C7: for every well-formed un-bracketed concatenation of fixed-length
AI tokens, decoding it and extracting yields the same field values as
extracting the equivalent hand-written bracketed string (the `raw` echo
field necessarily differs). -/
theorem c7_roundtrip (today : Int) (ts : List (Str × Str))
    (hwf : ∀ t ∈ ts, fixedTokB t = true) :
    (parseGs1 today (.str (rawOfToks ts))).gtin14 =
      (parseGs1 today (.str (bracketedOfToks ts))).gtin14 ∧
    (parseGs1 today (.str (rawOfToks ts))).gtin13 =
      (parseGs1 today (.str (bracketedOfToks ts))).gtin13 ∧
    (parseGs1 today (.str (rawOfToks ts))).expiry =
      (parseGs1 today (.str (bracketedOfToks ts))).expiry ∧
    (parseGs1 today (.str (rawOfToks ts))).expiryFormatted =
      (parseGs1 today (.str (bracketedOfToks ts))).expiryFormatted ∧
    (parseGs1 today (.str (rawOfToks ts))).expiryStatus =
      (parseGs1 today (.str (bracketedOfToks ts))).expiryStatus ∧
    (parseGs1 today (.str (rawOfToks ts))).batch =
      (parseGs1 today (.str (bracketedOfToks ts))).batch ∧
    (parseGs1 today (.str (rawOfToks ts))).serial =
      (parseGs1 today (.str (bracketedOfToks ts))).serial ∧
    (parseGs1 today (.str (rawOfToks ts))).qty =
      (parseGs1 today (.str (bracketedOfToks ts))).qty ∧
    (parseGs1 today (.str (rawOfToks ts))).valid =
      (parseGs1 today (.str (bracketedOfToks ts))).valid ∧
    (parseGs1 today (.str (rawOfToks ts))).matchType =
      (parseGs1 today (.str (bracketedOfToks ts))).matchType := by
  cases ts with
  | nil => exact ⟨rfl, rfl, rfl, rfl, rfl, rfl, rfl, rfl, rfl, rfl⟩
  | cons t ts2 =>
    obtain ⟨L, haL, hL, hvlen, hvdig⟩ :=
      fixedTok_facts (hwf t (List.mem_cons_self t ts2))
    obtain ⟨hclen, hcdig, hext⟩ := fixed_code_facts haL hL
    have ht1ne : t.1 ≠ [] := by
      intro hh
      rw [hh] at hclen
      simp at hclen
    have hrne : rawOfToks (t :: ts2) ≠ [] := by
      rw [rawOfToks_cons]
      simp only [ne_eq, List.append_eq_nil]
      exact fun hh => ht1ne hh.1.1
    have hbne : bracketedOfToks (t :: ts2) ≠ [] := by
      rw [bracketedOfToks_cons]
      simp
    rw [parseGs1_str _ _ hrne, parseGs1_str _ _ hbne]
    have hcl1 : cleanedOf (rawOfToks (t :: ts2)) = bracketedOfToks (t :: ts2) := by
      rw [cleanedOf_unbracketed (rawOfToks_digits hwf)]
      exact convertRaw_toks _ hwf
    have hcl2 : cleanedOf (bracketedOfToks (t :: ts2)) =
        bracketedOfToks (t :: ts2) := by
      apply cleanedOf_self (bracketedOfToks_chars hwf)
      rw [bracketedOfToks_cons]
      simp
    rw [hcl1, hcl2]
    exact ⟨rfl, rfl, rfl, rfl, rfl, rfl, rfl, rfl, rfl, rfl⟩

/-- C7 witness: a concrete GTIN+expiry token list round-trips: the
un-bracketed payload `0106297000001234` `17250630` extracts the same
fields as the hand-written `(01)06297000001234(17)250630`. -/
theorem c7_witness :
    (parseGs1 0 (.str (rawOfToks
        [("01".data, "06297000001234".data), ("17".data, "250630".data)]))).gtin14 =
      (parseGs1 0 (.str (bracketedOfToks
        [("01".data, "06297000001234".data), ("17".data, "250630".data)]))).gtin14 ∧
    (parseGs1 0 (.str (rawOfToks
        [("01".data, "06297000001234".data), ("17".data, "250630".data)]))).gtin13 =
      (parseGs1 0 (.str (bracketedOfToks
        [("01".data, "06297000001234".data), ("17".data, "250630".data)]))).gtin13 ∧
    (parseGs1 0 (.str (rawOfToks
        [("01".data, "06297000001234".data), ("17".data, "250630".data)]))).expiry =
      (parseGs1 0 (.str (bracketedOfToks
        [("01".data, "06297000001234".data), ("17".data, "250630".data)]))).expiry ∧
    (parseGs1 0 (.str (rawOfToks
        [("01".data, "06297000001234".data), ("17".data, "250630".data)]))).expiryFormatted =
      (parseGs1 0 (.str (bracketedOfToks
        [("01".data, "06297000001234".data), ("17".data, "250630".data)]))).expiryFormatted ∧
    (parseGs1 0 (.str (rawOfToks
        [("01".data, "06297000001234".data), ("17".data, "250630".data)]))).expiryStatus =
      (parseGs1 0 (.str (bracketedOfToks
        [("01".data, "06297000001234".data), ("17".data, "250630".data)]))).expiryStatus ∧
    (parseGs1 0 (.str (rawOfToks
        [("01".data, "06297000001234".data), ("17".data, "250630".data)]))).batch =
      (parseGs1 0 (.str (bracketedOfToks
        [("01".data, "06297000001234".data), ("17".data, "250630".data)]))).batch ∧
    (parseGs1 0 (.str (rawOfToks
        [("01".data, "06297000001234".data), ("17".data, "250630".data)]))).serial =
      (parseGs1 0 (.str (bracketedOfToks
        [("01".data, "06297000001234".data), ("17".data, "250630".data)]))).serial ∧
    (parseGs1 0 (.str (rawOfToks
        [("01".data, "06297000001234".data), ("17".data, "250630".data)]))).qty =
      (parseGs1 0 (.str (bracketedOfToks
        [("01".data, "06297000001234".data), ("17".data, "250630".data)]))).qty ∧
    (parseGs1 0 (.str (rawOfToks
        [("01".data, "06297000001234".data), ("17".data, "250630".data)]))).valid =
      (parseGs1 0 (.str (bracketedOfToks
        [("01".data, "06297000001234".data), ("17".data, "250630".data)]))).valid ∧
    (parseGs1 0 (.str (rawOfToks
        [("01".data, "06297000001234".data), ("17".data, "250630".data)]))).matchType =
      (parseGs1 0 (.str (bracketedOfToks
        [("01".data, "06297000001234".data), ("17".data, "250630".data)]))).matchType :=
  c7_roundtrip 0 [("01".data, "06297000001234".data), ("17".data, "250630".data)]
    (by decide)

/-- C10: the decoder dictionary holds exactly 19 AI codes; beyond the five
the extractor consumes, the codes 02, 11, 12, 13, 15, 16, 20 (fixed length)
and 22, 37, 240, 241, 242, 250, 251 (variable length) are recognized at a
scan position and bracketed and consumed with their dictionary lengths —
not skipped character by character; e.g. `11250630` decodes to
`(11)250630`. -/
theorem c10_dictionary :
    aiDict.map Prod.fst =
      ["01".data, "02".data, "10".data, "11".data, "12".data, "13".data,
       "15".data, "16".data, "17".data, "20".data, "21".data, "22".data,
       "30".data, "37".data, "240".data, "241".data, "242".data, "250".data,
       "251".data] ∧
    (∀ c ∈ ["22".data, "37".data], ∀ v : Str,
      decodePart (c ++ v) = '(' :: c ++ [')'] ++ v) ∧
    (∀ c ∈ ["240".data, "241".data, "242".data, "250".data, "251".data],
      ∀ v : Str, decodePart (c ++ v) = '(' :: c ++ [')'] ++ v) ∧
    (∀ p ∈ [("02".data, 14), ("11".data, 6), ("12".data, 6), ("13".data, 6),
        ("15".data, 6), ("16".data, 6), ("20".data, 2)],
      ∀ v rest : Str, v.length = p.2 →
        decodePart (p.1 ++ v ++ rest) =
          '(' :: p.1 ++ [')'] ++ v ++ decodePart rest) ∧
    convertRawToParenthesized "11250630".data = "(11)250630".data := by
  refine ⟨by decide, ?_, ?_, ?_, by decide⟩
  · intro c hc v
    fin_cases hc
    · exact decodePart_var_code "22".data (by decide) (by decide) (fun x => rfl) v
    · exact decodePart_var_code "37".data (by decide) (by decide) (fun x => rfl) v
  · intro c hc v
    fin_cases hc <;> exact decodePart_var_code3 _ (by decide) (by decide) v
  · intro p hp v rest hv
    fin_cases hp
    · exact decodePart_fixed_code "02".data (by decide) (by decide) (by decide)
        (fun x => rfl) v rest hv
    · exact decodePart_fixed_code "11".data (by decide) (by decide) (by decide)
        (fun x => rfl) v rest hv
    · exact decodePart_fixed_code "12".data (by decide) (by decide) (by decide)
        (fun x => rfl) v rest hv
    · exact decodePart_fixed_code "13".data (by decide) (by decide) (by decide)
        (fun x => rfl) v rest hv
    · exact decodePart_fixed_code "15".data (by decide) (by decide) (by decide)
        (fun x => rfl) v rest hv
    · exact decodePart_fixed_code "16".data (by decide) (by decide) (by decide)
        (fun x => rfl) v rest hv
    · exact decodePart_fixed_code "20".data (by decide) (by decide) (by decide)
        (fun x => rfl) v rest hv

/-- C10 witness: the fixed-length code 11 and the variable-length code 240
at a scan position, at concrete values. -/
theorem c10_witness :
    decodePart ("11".data ++ "250630".data ++ []) =
      '(' :: "11".data ++ [')'] ++ "250630".data ++ decodePart [] ∧
    decodePart ("240".data ++ "XYZ99".data) =
      '(' :: "240".data ++ [')'] ++ "XYZ99".data :=
  ⟨c10_dictionary.2.2.2.1 ("11".data, 6) (by decide) "250630".data []
      (by decide),
   c10_dictionary.2.2.1 "240".data (by decide) "XYZ99".data⟩

/-- C2 amended: in tier 4, the set counted is the set of exact-map ENTRIES
(distinct by key) whose key contains one of the contiguous 6-digit windows
of the last 10 digits of the scan's `gtin14` — each product contributes its
canonical 14-digit key and, when that key starts with `'0'`, also a
13-digit alias key.  Zero such entries give `NONE`, exactly one gives
`SEQ6` with that entry's name, more than one gives `AMBIGUOUS-SEQ6` with
empty name; a single matching product with a leading-zero GTIN can
therefore yield `AMBIGUOUS-SEQ6`. -/
theorem c2_amended_seq6_counts_keys (parsed : ParsedScan) (index : MasterIndex)
    (hv : parsed.valid = true) (hne : index.exact ≠ [])
    (hknd : (index.exact.map Prod.fst).Nodup)
    (h14 : mapGet index.exact parsed.gtin14 = none)
    (h13 : mapGet index.exact parsed.gtin13 = none)
    (hb : mmapGet index.last8 (sliceLast 8 parsed.gtin14) = none) :
    (seq6Candidates index.exact (sliceLast 10 parsed.gtin14) = [] →
      matchProduct parsed index = ⟨[], "NONE".data⟩) ∧
    (∀ e : Str × Str,
      seq6Candidates index.exact (sliceLast 10 parsed.gtin14) = [e] →
      matchProduct parsed index = ⟨e.2, "SEQ6".data⟩) ∧
    (1 < (seq6Candidates index.exact (sliceLast 10 parsed.gtin14)).length →
      matchProduct parsed index = ⟨[], "AMBIGUOUS-SEQ6".data⟩) := by
  have hE : index.exact.isEmpty = false := by
    cases hx : index.exact with
    | nil => exact absurd hx hne
    | cons a l => rfl
  have hmp : matchProduct parsed index = tier4 parsed index := by
    unfold matchProduct
    rw [hv, h14, h13, hb]
    simp [hE]
  have hperm := seq6Scan_perm_candidates hknd (sliceLast 10 parsed.gtin14)
  refine ⟨?_, ?_, ?_⟩
  · intro hc
    rw [hmp]
    unfold tier4
    have hnil : seq6Scan index.exact (sliceLast 10 parsed.gtin14) = [] :=
      (hc ▸ hperm).eq_nil
    rw [hnil]
    rfl
  · intro e hc
    rw [hmp]
    unfold tier4
    have hone : seq6Scan index.exact (sliceLast 10 parsed.gtin14) = [e] :=
      List.Perm.eq_singleton (hc ▸ hperm)
    rw [hone]
    rfl
  · intro hlen
    rw [hmp]
    unfold tier4
    have hl2 : 1 < (seq6Scan index.exact (sliceLast 10 parsed.gtin14)).length := by
      rw [hperm.length_eq]
      exact hlen
    rw [if_neg (by simp only [beq_iff_eq]; omega), if_pos hl2]

/-- C2 witness: a unique matching exact-map key (product GTIN without a
leading zero) resolves through tier 4 to `SEQ6` with the product's name. -/
theorem c2_witness :
    matchProduct (parseGs1 0 (.str "(01)88881234567800".data))
        (buildMasterIndex [("99991234567890".data, "Prod C".data)]) =
      ⟨"Prod C".data, "SEQ6".data⟩ :=
  (c2_amended_seq6_counts_keys
      (parseGs1 0 (.str "(01)88881234567800".data))
      (buildMasterIndex [("99991234567890".data, "Prod C".data)])
      (by decide) (by decide) (by decide) (by decide) (by decide)
      (by decide)).2.1
    ("99991234567890".data, "Prod C".data) (by decide)

/-- C3: for a valid scan whose 14- and 13-digit GTINs miss the (non-empty)
exact map, the last-8 tier decides: a singleton bucket gives `LAST8` with
that entry's name; a bucket holding two distinct entries gives
`AMBIGUOUS-LAST8` (terminal, since `matchProduct` returns there); an absent
bucket falls through to tier 4. -/
theorem c3_tier3_last8 (parsed : ParsedScan) (index : MasterIndex)
    (hv : parsed.valid = true) (hne : index.exact ≠ [])
    (h14 : mapGet index.exact parsed.gtin14 = none)
    (h13 : mapGet index.exact parsed.gtin13 = none) :
    (∀ e : Str × Str,
      mmapGet index.last8 (sliceLast 8 parsed.gtin14) = some [e] →
      matchProduct parsed index = ⟨e.2, "LAST8".data⟩) ∧
    (∀ b : List (Str × Str),
      mmapGet index.last8 (sliceLast 8 parsed.gtin14) = some b →
      (∃ e1 ∈ b, ∃ e2 ∈ b, e1 ≠ e2) →
      matchProduct parsed index = ⟨[], "AMBIGUOUS-LAST8".data⟩) ∧
    (mmapGet index.last8 (sliceLast 8 parsed.gtin14) = none →
      matchProduct parsed index = tier4 parsed index) := by
  have hE : index.exact.isEmpty = false := by
    cases hx : index.exact with
    | nil => exact absurd hx hne
    | cons a l => rfl
  refine ⟨?_, ?_, ?_⟩
  · intro e hb
    unfold matchProduct
    rw [hv, h14, h13, hb]
    simp [hE]
  · intro b hb hdist
    obtain ⟨e1, he1, e2, he2, hne12⟩ := hdist
    have hlen : 1 < b.length := by
      cases b with
      | nil => simp at he1
      | cons x l =>
        cases l with
        | nil =>
          simp only [List.mem_singleton] at he1 he2
          exact absurd (he1.trans he2.symm) hne12
        | cons y l2 => simp only [List.length_cons]; omega
    unfold matchProduct
    rw [hv, h14, h13, hb]
    simp only [hE, Bool.not_true, Bool.false_eq_true, if_false]
    rw [if_neg (by simp; omega), if_pos hlen]
  · intro hb
    unfold matchProduct
    rw [hv, h14, h13, hb]
    simp [hE]

/-- C5: every ParsedScan with a GTIN present has a 14-character `gtin14`,
and `gtin13` equals `gtin14` with one leading zero removed exactly when
`gtin14` starts with `'0'`, else equals `gtin14`. -/
theorem c5_gtin_invariant (today : Int) (v : JSVal)
    (h : (parseGs1 today v).gtin14 ≠ []) :
    (parseGs1 today v).gtin14.length = 14 ∧
    ((parseGs1 today v).gtin14.head? = some '0' →
      (parseGs1 today v).gtin13 = (parseGs1 today v).gtin14.drop 1) ∧
    ((parseGs1 today v).gtin14.head? ≠ some '0' →
      (parseGs1 today v).gtin13 = (parseGs1 today v).gtin14) := by
  cases v with
  | nonstr => exact absurd rfl h
  | str s =>
    by_cases hs : s = []
    · subst hs
      exact absurd rfl h
    · rw [parseGs1_str today s hs] at h ⊢
      rw [extractFields_gtin14] at h ⊢
      rw [extractFields_gtin13]
      cases hp : findFixed "01".data 14 (cleanedOf s) with
      | some g =>
        have hgp : gtinPair (cleanedOf s) =
            (g, if g.head? == some '0' then g.drop 1 else g) := by
          unfold gtinPair
          rw [hp]
        rw [hgp] at h ⊢
        have hlen : g.length = 14 := findFixed_some_len hp
        refine ⟨hlen, ?_, ?_⟩
        · intro hh
          simp only [hh]
          rfl
        · intro hh
          simp only
          rw [if_neg]
          simp only [beq_iff_eq]
          exact hh
      | none =>
        cases hq : findShort01 (cleanedOf s) with
        | some g =>
          have hgp : gtinPair (cleanedOf s) =
              (padStartL 14 '0' (padStartL 13 '0' g), padStartL 13 '0' g) := by
            unfold gtinPair
            rw [hp, hq]
          rw [hgp] at h ⊢
          have hg13 : (padStartL 13 '0' g).length = 13 := by
            rw [padStartL_length]
            rcases findShort01_some_len hq with h13 | h12 <;> omega
          have hg14 : padStartL 14 '0' (padStartL 13 '0' g) =
              '0' :: padStartL 13 '0' g :=
            padStartL_of_length_eq '0' _ 13 hg13
          rw [hg14]
          refine ⟨by simp [hg13], ?_, ?_⟩
          · intro _
            rfl
          · intro hh
            exact absurd rfl hh
        | none =>
          have hgp : gtinPair (cleanedOf s) = ([], []) := by
            unfold gtinPair
            rw [hp, hq]
          rw [hgp] at h
          exact absurd rfl h

/-- C5 witness: the invariant applied to a concrete scan whose GTIN starts
with a zero. -/
theorem c5_witness :
    (parseGs1 0 (.str "(01)06297000001234".data)).gtin14.length = 14 ∧
    ((parseGs1 0 (.str "(01)06297000001234".data)).gtin14.head? = some '0' →
      (parseGs1 0 (.str "(01)06297000001234".data)).gtin13 =
        (parseGs1 0 (.str "(01)06297000001234".data)).gtin14.drop 1) ∧
    ((parseGs1 0 (.str "(01)06297000001234".data)).gtin14.head? ≠ some '0' →
      (parseGs1 0 (.str "(01)06297000001234".data)).gtin13 =
        (parseGs1 0 (.str "(01)06297000001234".data)).gtin14) :=
  c5_gtin_invariant 0 (.str "(01)06297000001234".data) (by decide)

/-- C3 witness: a concrete catalog and scan hitting the singleton-bucket
tier: the suffix `00001234` resolves to `LAST8` with the product's name. -/
theorem c3_witness :
    matchProduct (parseGs1 0 (.str "(01)55550000001234".data))
        (buildMasterIndex [("99990000001234".data, "Product B".data)]) =
      ⟨"Product B".data, "LAST8".data⟩ :=
  (c3_tier3_last8 (parseGs1 0 (.str "(01)55550000001234".data))
      (buildMasterIndex [("99990000001234".data, "Product B".data)])
      (by decide) (by decide) (by decide) (by decide)).1
    ("99990000001234".data, "Product B".data) (by decide)

end OldTrack
